import Mathlib

/-!
Verification of the GJK 3D intersection test (`Main.cpp` of physics-GJK3D).

The core of the repository is a Gilbert-Johnson-Keerthi intersection test on
two oriented bounding boxes, each given by 8 corner points:
`getFarthestPointInDirection`, `Support`, `checkTetrahedron`,
`ContainsOrigin` and the driving loop `TestGJK`.

The embedding models `glm::vec3` with exact coordinates in an arbitrary
linear ordered commutative ring (the algorithm uses only `+`, `-`, `*` and
sign tests, never division), so every theorem below holds in particular
over `ℚ` and `ℝ`; concrete witnesses are evaluated over `ℤ`.  The mutable
global `simplex` (`std::vector<glm::vec3>`) and the in-out parameter `dir`
are modelled by explicit state passing: each routine returns the new
simplex and the new direction alongside its boolean result.  The driving
loop `while (true)` is modelled with an explicit fuel parameter; `none`
means the fuel was exhausted before any `return` was reached.
-/

namespace GJK

/-- `glm::vec3`, with exact coordinates. -/
structure Vec3 (α : Type) where
  x : α
  y : α
  z : α
deriving DecidableEq

variable {α : Type} [LinearOrderedCommRing α]

/-- `glm::dot`. -/
def dotv (a b : Vec3 α) : α := a.x * b.x + a.y * b.y + a.z * b.z

/-- `glm::cross`. -/
def cross (a b : Vec3 α) : Vec3 α :=
  ⟨a.y * b.z - a.z * b.y, a.z * b.x - a.x * b.z, a.x * b.y - a.y * b.x⟩

/-- Vector negation, `-v`. -/
def negv (a : Vec3 α) : Vec3 α := ⟨-a.x, -a.y, -a.z⟩

/-- Vector subtraction, `u - v`. -/
def subv (a b : Vec3 α) : Vec3 α := ⟨a.x - b.x, a.y - b.y, a.z - b.z⟩

/-- `struct OBB { glm::vec3 corners[8]; }`. -/
structure OBB (α : Type) where
  corners : Fin 8 → Vec3 α

/-- Body of the comparison in the loop of `getFarthestPointInDirection`:
keep the running maximum of the projections and the point attaining it,
updating only on a strictly larger projection. -/
def farthestStep (dir : Vec3 α) (acc : α × Vec3 α) (p : Vec3 α) : α × Vec3 α :=
  if dotv p dir > acc.1 then (dotv p dir, p) else acc

/-- `getFarthestPointInDirection`: start from `corners[0]`, then scan
`corners[1] .. corners[7]` keeping the point with the strictly largest
projection onto `dir`. -/
def getFarthestPointInDirection (obj : OBB α) (dir : Vec3 α) : Vec3 α :=
  (List.foldl (farthestStep dir)
    (dotv (obj.corners 0) dir, obj.corners 0)
    [obj.corners 1, obj.corners 2, obj.corners 3, obj.corners 4,
     obj.corners 5, obj.corners 6, obj.corners 7]).2

/-- `Support`: difference of the farthest points of the two hulls in
opposite directions.  Pure by construction (the C++ version takes the hulls
by value and only reads `dir`). -/
def Support (a b : OBB α) (dir : Vec3 α) : Vec3 α :=
  subv (getFarthestPointInDirection a dir) (getFarthestPointInDirection b (negv dir))

/-- `checkTetrahedron`: the size-3-style edge test run after one of the
tetrahedron faces has been found to have the origin outside it.  In the
source it mutates the global 4-point `simplex` (index assignments followed
by `erase(begin)` / `erase(end-1)`) and the in-out `dir`; here it returns
`(result, new simplex, new dir)`.  Every call site passes a 4-element
simplex; on any other shape the simplex and direction are returned
unchanged. -/
def checkTetrahedron (ao ab ac abc : Vec3 α) (simplex : List (Vec3 α)) (dir : Vec3 α) :
    Bool × List (Vec3 α) × Vec3 α :=
  match simplex with
  | [_s0, s1, s2, s3] =>
    let ab_abc := cross ab abc
    if 0 < dotv ab_abc ao then
      -- simplex[1] = simplex[2]; simplex[2] = simplex[3]; erase begin; erase end-1
      (false, [s2, s3], cross (cross ab ao) ab)
    else
      let acp := cross abc ac
      if 0 < dotv acp ao then
        -- simplex[2] = simplex[3]; erase begin; erase end-1
        (false, [s1, s3], cross (cross ac ao) ac)
      else
        -- simplex[0] = simplex[1]; simplex[1] = simplex[2]; simplex[2] = simplex[3];
        -- erase end-1
        (false, [s1, s2, s3], abc)
  | _ => (false, simplex, dir)

/-- `ContainsOrigin`: the simplex case analysis.  The last list element is
`a`, the most recently added point: the source reads
`glm::vec3 a = simplex.back()` before dispatching on the size, so on the
empty simplex it performs an out-of-bounds read with no defined result —
this function models only the defined (non-empty) executions, and
`ContainsOriginChecked` below adds that entry read.  Returns
`(contained, new simplex, new dir)`; in branches where the source does not
assign `dir`, the direction is returned unchanged.  The catch-all arm
covers the sizes (1, and 5 and above) that fall through every size test
after the `back()` read succeeded. -/
def ContainsOrigin (simplex : List (Vec3 α)) (dir : Vec3 α) :
    Bool × List (Vec3 α) × Vec3 α :=
  match simplex with
  | [c, b, a] =>
    -- triangle: simplex[0] = c, simplex[1] = b, simplex[2] = a
    let ab := subv b a
    let ac := subv c a
    let abc := cross ab ac
    let ab_abc := cross ab abc
    if 0 < dotv ab_abc (negv a) then
      -- simplex[0] = simplex[1]; simplex[1] = simplex[2]; erase end-1
      (false, [b, a], cross (cross ab (negv a)) ab)
    else
      let abc_ac := cross abc ac
      if 0 < dotv abc_ac (negv a) then
        -- simplex[1] = simplex[2]; erase end-1
        (false, [c, a], cross (cross ac (negv a)) ac)
      else
        if 0 < dotv abc (negv a) then
          (false, [c, b, a], abc)
        else
          -- swap simplex[0] and simplex[1]
          (false, [b, c, a], negv abc)
  | [b, a] =>
    -- line segment: simplex[0] = b, simplex[1] = a
    let ab := subv b a
    (false, [b, a], cross (cross ab (negv a)) ab)
  | [d, c, b, a] =>
    -- tetrahedron: simplex[0] = d, simplex[1] = c, simplex[2] = b, simplex[3] = a
    let ab := subv b a
    let ac := subv c a
    let ad := subv d a
    let abc := cross ab ac
    if 0 < dotv abc (negv a) then
      checkTetrahedron (negv a) ab ac abc [d, c, b, a] dir
    else
      let acd := cross ac ad
      if 0 < dotv acd (negv a) then
        -- simplex[2] = simplex[1]; simplex[1] = simplex[0]
        checkTetrahedron (negv a) ac ad acd [d, d, c, a] dir
      else
        let adb := cross ad ab
        if 0 < dotv adb (negv a) then
          -- simplex[1] = simplex[2]; simplex[2] = simplex[0]
          checkTetrahedron (negv a) ad ab adb [d, b, d, a] dir
        else
          (true, [d, c, b, a], dir)
  | _ => (false, simplex, dir)

/-- `ContainsOrigin` with the unconditional `simplex.back()` read the
source performs at function entry (`Main.cpp` line 188): on the empty
simplex `back()` is an out-of-bounds read — undefined behavior, modelled
as `none` — and on any non-empty simplex the read succeeds and the body
behaves as `ContainsOrigin`. -/
def ContainsOriginChecked (simplex : List (Vec3 α)) (dir : Vec3 α) :
    Option (Bool × List (Vec3 α) × Vec3 α) :=
  match simplex.getLast? with
  | none => none
  | some _ => some (ContainsOrigin simplex dir)

/-- The state threaded through the driving loop: the global `simplex` and
the local `dir` of `TestGJK`. -/
structure GJKState (α : Type) where
  simplex : List (Vec3 α)
  dir : Vec3 α
deriving DecidableEq

/-- The seed direction `glm::vec3(1.0f)`. -/
def dirInit : Vec3 α := ⟨1, 1, 1⟩

/-- The part of `TestGJK` before the `while (true)` loop: clear the
simplex, push the first two support points, possibly exit early with
`false` (when `dot(simplex.back(), dir) < 0`), otherwise compute the
initial line-perpendicular direction inline. -/
def initGJK (a b : OBB α) : Bool ⊕ GJKState α :=
  let c := Support a b dirInit
  let d1 := negv c
  let p2 := Support a b d1
  if dotv p2 d1 < 0 then
    Sum.inl false
  else
    Sum.inr ⟨[c, p2], cross (cross (subv c p2) (negv p2)) (subv c p2)⟩

/-- One iteration of the `while (true)` loop of `TestGJK`: push a support
point, exit with `false` when `dot(simplex.back(), dir) <= 0`, otherwise
consult `ContainsOrigin` and either exit with `true` or continue with the
updated simplex and direction. -/
def gjkStep (a b : OBB α) (s : GJKState α) : GJKState α ⊕ Bool :=
  let p := Support a b s.dir
  let pushed := s.simplex ++ [p]
  if dotv p s.dir ≤ 0 then
    Sum.inr false
  else
    let r := ContainsOrigin pushed s.dir
    if r.1 then
      Sum.inr true
    else
      Sum.inl ⟨r.2.1, r.2.2⟩

/-- The `while (true)` loop of `TestGJK`, with fuel: `none` means the fuel
ran out before the loop returned. -/
def gjkLoop (a b : OBB α) : Nat → GJKState α → Option Bool
  | 0, _ => none
  | fuel + 1, s =>
    match gjkStep a b s with
    | Sum.inr r => some r
    | Sum.inl s1 => gjkLoop a b fuel s1

/-- `TestGJK`, with fuel bounding the number of iterations of its
`while (true)` loop. -/
def TestGJKFuel (fuel : Nat) (a b : OBB α) : Option Bool :=
  match initGJK a b with
  | Sum.inl r => some r
  | Sum.inr s => gjkLoop a b fuel s

/-! ### Spec-side definition for the Support refinement claim

The spec describes the farthest-point computation as: the first point of
the hull whose dot product with the direction is not exceeded by any later
point (ties resolved to the earliest such point).  `firstNotExceeded` and
`ArgMaxPoint` below transcribe those words; they are compared with the
source-derived `getFarthestPointInDirection` in the theorem for the
Support claim. -/

/-- Scan `p` followed by `l`: return the first point whose projection onto
`d` is not exceeded by any later point. -/
def firstNotExceeded (d : Vec3 α) : Vec3 α → List (Vec3 α) → Vec3 α
  | p, [] => p
  | p, q :: l =>
    if ∀ r ∈ q :: l, dotv r d ≤ dotv p d then p
    else firstNotExceeded d q l

/-- `ArgMaxPoint` as worded in the spec: the first corner whose dot
product with `d` is not exceeded by any later corner. -/
def ArgMaxPoint (obj : OBB α) (d : Vec3 α) : Vec3 α :=
  firstNotExceeded d (obj.corners 0)
    [obj.corners 1, obj.corners 2, obj.corners 3, obj.corners 4,
     obj.corners 5, obj.corners 6, obj.corners 7]

/-! ### Concrete hulls used as witnesses and failing inputs -/

/-- Build an `OBB` from a list of (at most 8) corners, repeating the
origin if the list is short. -/
def mkOBB (l : List (Vec3 α)) : OBB α :=
  ⟨fun i => l.getD i.val ⟨0, 0, 0⟩⟩

/-- An axis-aligned cube centered at the origin with half-extent 1. -/
def boxA : OBB ℤ := mkOBB
  [⟨1, 1, 1⟩, ⟨1, 1, -1⟩, ⟨1, -1, 1⟩, ⟨1, -1, -1⟩,
   ⟨-1, 1, 1⟩, ⟨-1, 1, -1⟩, ⟨-1, -1, 1⟩, ⟨-1, -1, -1⟩]

/-- An axis-aligned box centered at `(-2, 3, 0)` with half-extents
`(1, 2, 1)`.  It touches `boxA` exactly along the edge
`x = -1, y = 1`. -/
def boxB : OBB ℤ := mkOBB
  [⟨-1, 5, 1⟩, ⟨-1, 5, -1⟩, ⟨-1, 1, 1⟩, ⟨-1, 1, -1⟩,
   ⟨-3, 5, 1⟩, ⟨-3, 5, -1⟩, ⟨-3, 1, 1⟩, ⟨-3, 1, -1⟩]

/-- An axis-aligned cube centered at `(20, 0, 0)` with half-extent 1, far
away from `boxA`. -/
def boxSep : OBB ℤ := mkOBB
  [⟨21, 1, 1⟩, ⟨21, 1, -1⟩, ⟨21, -1, 1⟩, ⟨21, -1, -1⟩,
   ⟨19, 1, 1⟩, ⟨19, 1, -1⟩, ⟨19, -1, 1⟩, ⟨19, -1, -1⟩]

/-! ### Theorems -/

lemma firstNotExceeded_of_all (d p : Vec3 α) (l : List (Vec3 α))
    (h : ∀ r ∈ l, dotv r d ≤ dotv p d) :
    firstNotExceeded d p l = p := by
  cases l with
  | nil => rfl
  | cons q l =>
    rw [firstNotExceeded]
    exact if_pos h

lemma firstNotExceeded_congr (d p q : Vec3 α) (l : List (Vec3 α))
    (hq : dotv q d ≤ dotv p d) (hex : ¬ ∀ r ∈ l, dotv r d ≤ dotv p d) :
    firstNotExceeded d p l = firstNotExceeded d q l := by
  cases l with
  | nil => exact absurd (fun r hr => absurd hr (List.not_mem_nil r)) hex
  | cons r l =>
    rw [firstNotExceeded, firstNotExceeded, if_neg hex, if_neg ?_]
    intro hall
    exact hex fun s hs => (hall s hs).trans hq

lemma farthest_foldl_eq (d : Vec3 α) (l : List (Vec3 α)) : ∀ p : Vec3 α,
    (List.foldl (farthestStep d) (dotv p d, p) l).2 = firstNotExceeded d p l := by
  induction l with
  | nil => intro p; rfl
  | cons q l ih =>
    intro p
    rw [List.foldl_cons, firstNotExceeded]
    by_cases hq : dotv q d > dotv p d
    · rw [if_neg ?_, show farthestStep d (dotv p d, p) q = (dotv q d, q) from if_pos hq,
        ih q]
      intro hall
      exact absurd (hall q (List.mem_cons_self q l)) (not_le.mpr hq)
    · rw [show farthestStep d (dotv p d, p) q = (dotv p d, p) from if_neg hq, ih p]
      by_cases hall : ∀ r ∈ q :: l, dotv r d ≤ dotv p d
      · rw [if_pos hall]
        exact firstNotExceeded_of_all d p l fun r hr => hall r (List.mem_cons_of_mem q hr)
      · rw [if_neg hall]
        refine firstNotExceeded_congr d p q l (not_lt.mp hq) ?_
        intro hl
        refine hall fun r hr => ?_
        rcases List.mem_cons.mp hr with h | h
        · exact h ▸ not_lt.mp hq
        · exact hl r h

/-- Claim C4: `Support(A, B, dir)` equals
`ArgMaxPoint(A, dir) - ArgMaxPoint(B, -dir)`, where `ArgMaxPoint` picks the
first corner whose dot product with the direction is not exceeded by any
later corner (ties resolved to the earliest such corner).  The theorem
holds for every direction, in particular every non-zero one; `Support` is
pure by construction, so it has no side effects on the hulls, the simplex
or `dir`. -/
theorem support_eq_argmax (a b : OBB α) (dir : Vec3 α) :
    Support a b dir = subv (ArgMaxPoint a dir) (ArgMaxPoint b (negv dir)) := by
  unfold Support getFarthestPointInDirection ArgMaxPoint
  rw [farthest_foldl_eq, farthest_foldl_eq]

/-- Claim C1: for a 4-point simplex `[d, c, b, a]` (with `a` the most
recently added point) and any direction, if none of the three face tests
`dot(ab x ac, -a) > 0`, `dot(ac x ad, -a) > 0`, `dot(ad x ab, -a) > 0`
holds (exact zeros counting as not outside), `ContainsOrigin` reports
containment. -/
theorem containsOrigin_tetra_enclosed (d c b a dir : Vec3 α)
    (h1 : ¬ 0 < dotv (cross (subv b a) (subv c a)) (negv a))
    (h2 : ¬ 0 < dotv (cross (subv c a) (subv d a)) (negv a))
    (h3 : ¬ 0 < dotv (cross (subv d a) (subv b a)) (negv a)) :
    (ContainsOrigin [d, c, b, a] dir).1 = true := by
  simp only [ContainsOrigin]
  rw [if_neg h1, if_neg h2, if_neg h3]

theorem containsOrigin_tetra_enclosed_witness :
    (¬ 0 < dotv (cross (subv ((⟨0, 0, 1⟩ : Vec3 ℤ)) ⟨-1, -1, -1⟩)
        (subv ⟨0, 1, 0⟩ ⟨-1, -1, -1⟩)) (negv ⟨-1, -1, -1⟩))
    ∧ (¬ 0 < dotv (cross (subv ((⟨0, 1, 0⟩ : Vec3 ℤ)) ⟨-1, -1, -1⟩)
        (subv ⟨1, 0, 0⟩ ⟨-1, -1, -1⟩)) (negv ⟨-1, -1, -1⟩))
    ∧ (¬ 0 < dotv (cross (subv ((⟨1, 0, 0⟩ : Vec3 ℤ)) ⟨-1, -1, -1⟩)
        (subv ⟨0, 0, 1⟩ ⟨-1, -1, -1⟩)) (negv ⟨-1, -1, -1⟩))
    ∧ (ContainsOrigin [(⟨1, 0, 0⟩ : Vec3 ℤ), ⟨0, 1, 0⟩, ⟨0, 0, 1⟩, ⟨-1, -1, -1⟩]
        ⟨1, 0, 0⟩).1 = true :=
  ⟨by decide, by decide, by decide,
    containsOrigin_tetra_enclosed ⟨1, 0, 0⟩ ⟨0, 1, 0⟩ ⟨0, 0, 1⟩ ⟨-1, -1, -1⟩
      ⟨1, 0, 0⟩ (by decide) (by decide) (by decide)⟩

/-- Claim C5: the triangle case of `ContainsOrigin` on `[c, b, a]` with
`ab = b-a`, `ac = c-a`, `abc = ab x ac`: if `(ab x abc).(-a) > 0` it drops
`c`, leaving `[b, a]` with direction `(ab x (-a)) x ab`; else if
`(abc x ac).(-a) > 0` it drops `b`, leaving `[c, a]` with direction
`(ac x (-a)) x ac`; else it keeps all three points, ordered `[c, b, a]`
with direction `abc` when `abc.(-a) > 0` and `[b, c, a]` with direction
`-abc` otherwise; all branches report not contained. -/
theorem containsOrigin_triangle_cases (c b a dir : Vec3 α) :
    (0 < dotv (cross (subv b a) (cross (subv b a) (subv c a))) (negv a) →
      ContainsOrigin [c, b, a] dir =
        (false, [b, a], cross (cross (subv b a) (negv a)) (subv b a)))
    ∧ (¬ 0 < dotv (cross (subv b a) (cross (subv b a) (subv c a))) (negv a) →
        0 < dotv (cross (cross (subv b a) (subv c a)) (subv c a)) (negv a) →
        ContainsOrigin [c, b, a] dir =
          (false, [c, a], cross (cross (subv c a) (negv a)) (subv c a)))
    ∧ (¬ 0 < dotv (cross (subv b a) (cross (subv b a) (subv c a))) (negv a) →
        ¬ 0 < dotv (cross (cross (subv b a) (subv c a)) (subv c a)) (negv a) →
        0 < dotv (cross (subv b a) (subv c a)) (negv a) →
        ContainsOrigin [c, b, a] dir =
          (false, [c, b, a], cross (subv b a) (subv c a)))
    ∧ (¬ 0 < dotv (cross (subv b a) (cross (subv b a) (subv c a))) (negv a) →
        ¬ 0 < dotv (cross (cross (subv b a) (subv c a)) (subv c a)) (negv a) →
        ¬ 0 < dotv (cross (subv b a) (subv c a)) (negv a) →
        ContainsOrigin [c, b, a] dir =
          (false, [b, c, a], negv (cross (subv b a) (subv c a)))) := by
  refine ⟨fun h1 => ?_, fun h1 h2 => ?_, fun h1 h2 h3 => ?_, fun h1 h2 h3 => ?_⟩ <;>
    simp only [ContainsOrigin]
  · rw [if_pos h1]
  · rw [if_neg h1, if_pos h2]
  · rw [if_neg h1, if_neg h2, if_pos h3]
  · rw [if_neg h1, if_neg h2, if_neg h3]

theorem containsOrigin_triangle_cases_witness :
    (0 < dotv (cross (subv ((⟨-1, -1, 0⟩ : Vec3 ℤ)) ⟨0, -1, 2⟩)
        (cross (subv ⟨-1, -1, 0⟩ ⟨0, -1, 2⟩) (subv ⟨-2, -1, -1⟩ ⟨0, -1, 2⟩)))
        (negv ⟨0, -1, 2⟩))
    ∧ ContainsOrigin [(⟨-2, -1, -1⟩ : Vec3 ℤ), ⟨-1, -1, 0⟩, ⟨0, -1, 2⟩] ⟨1, 0, 0⟩ =
        (false, [⟨-1, -1, 0⟩, ⟨0, -1, 2⟩], ⟨4, 5, -2⟩) := by
  refine ⟨by decide, ?_⟩
  have h := (containsOrigin_triangle_cases (⟨-2, -1, -1⟩ : Vec3 ℤ) ⟨-1, -1, 0⟩
    ⟨0, -1, 2⟩ ⟨1, 0, 0⟩).1 (by decide)
  rw [h]
  decide

/-- Claim C6: the 2-point case of `ContainsOrigin` on `[b, a]` (with `a`
most recent) returns not contained, keeps the simplex unchanged and sets
the direction to the triple product `(ab x (-a)) x ab`; and the driving
loop computes the same formula inline for its first two points (the state
produced by `initGJK` has a 2-point simplex whose direction equals what
the 2-point case of `ContainsOrigin` would produce on it), without calling
the decision procedure. -/
theorem containsOrigin_line_and_inline (b a dir : Vec3 α) (A B : OBB α) :
    ContainsOrigin [b, a] dir =
      (false, [b, a], cross (cross (subv b a) (negv a)) (subv b a))
    ∧ (∀ s : GJKState α, initGJK A B = Sum.inr s →
        s.simplex.length = 2 ∧ s.dir = (ContainsOrigin s.simplex dir).2.2) := by
  refine ⟨rfl, fun s hs => ?_⟩
  unfold initGJK at hs
  by_cases h : dotv (Support A B (negv (Support A B dirInit)))
      (negv (Support A B dirInit)) < 0
  · rw [if_pos h] at hs
    exact absurd hs (by simp)
  · rw [if_neg h] at hs
    cases hs
    exact ⟨rfl, rfl⟩

theorem containsOrigin_line_and_inline_witness :
    initGJK boxA boxA =
      Sum.inr ⟨[⟨2, 2, 2⟩, ⟨-2, -2, -2⟩], ⟨0, 0, 0⟩⟩
    ∧ ((⟨[⟨2, 2, 2⟩, ⟨-2, -2, -2⟩], ⟨0, 0, 0⟩⟩ : GJKState ℤ).simplex.length = 2
       ∧ (⟨[⟨2, 2, 2⟩, ⟨-2, -2, -2⟩], ⟨0, 0, 0⟩⟩ : GJKState ℤ).dir =
           (ContainsOrigin
             (⟨[⟨2, 2, 2⟩, ⟨-2, -2, -2⟩], ⟨0, 0, 0⟩⟩ : GJKState ℤ).simplex
             ⟨5, 7, 9⟩).2.2) :=
  ⟨by decide,
    (containsOrigin_line_and_inline ⟨2, 2, 2⟩ ⟨-2, -2, -2⟩ ⟨5, 7, 9⟩ boxA boxA).2
      ⟨[⟨2, 2, 2⟩, ⟨-2, -2, -2⟩], ⟨0, 0, 0⟩⟩ (by decide)⟩

/-- Claim C10, counterexample: on the empty simplex — size 0, which the
claim includes — the source's unconditional `simplex.back()` is an
out-of-bounds read with no defined result (`ContainsOriginChecked`
returns `none`), so the call does not return `contained = false` with the
simplex and the direction unchanged, as the claim states. -/
theorem containsOrigin_empty_cex :
    (([] : List (Vec3 ℤ)).length ≠ 2 ∧ ([] : List (Vec3 ℤ)).length ≠ 3
      ∧ ([] : List (Vec3 ℤ)).length ≠ 4)
    ∧ ContainsOriginChecked ([] : List (Vec3 ℤ)) ⟨1, 0, 0⟩ = none
    ∧ ContainsOriginChecked ([] : List (Vec3 ℤ)) ⟨1, 0, 0⟩
        ≠ some (false, ([] : List (Vec3 ℤ)), ⟨1, 0, 0⟩) :=
  ⟨⟨by decide, by decide, by decide⟩, by decide, by decide⟩

/-- Claim C10, amended: on a non-empty simplex whose size is not 2, 3
or 4 (size 1, or 5 and above), the entry read `simplex.back()` succeeds
and `ContainsOrigin` returns not contained, leaving both the simplex and
the direction unchanged; at size 0 the entry read itself has no defined
result. -/
theorem containsOrigin_other_sizes (simplex : List (Vec3 α)) (dir : Vec3 α)
    (hne : simplex ≠ [])
    (h2 : simplex.length ≠ 2) (h3 : simplex.length ≠ 3) (h4 : simplex.length ≠ 4) :
    ContainsOriginChecked simplex dir = some (false, simplex, dir)
    ∧ ContainsOrigin simplex dir = (false, simplex, dir) := by
  have hplain : ContainsOrigin simplex dir = (false, simplex, dir) := by
    match simplex with
    | [] => exact absurd rfl hne
    | [p] => rfl
    | [p, q] => exact absurd rfl h2
    | [p, q, r] => exact absurd rfl h3
    | [p, q, r, t] => exact absurd rfl h4
    | p :: q :: r :: t :: u :: rest => rfl
  refine ⟨?_, hplain⟩
  unfold ContainsOriginChecked
  rw [List.getLast?_eq_getLast_of_ne_nil hne]
  exact congrArg some hplain

theorem containsOrigin_other_sizes_witness :
    (([(⟨1, 2, 3⟩ : Vec3 ℤ), ⟨4, 5, 6⟩, ⟨7, 8, 9⟩, ⟨1, 0, 0⟩, ⟨0, 1, 0⟩] :
        List (Vec3 ℤ)) ≠ []
     ∧ ([(⟨1, 2, 3⟩ : Vec3 ℤ), ⟨4, 5, 6⟩, ⟨7, 8, 9⟩, ⟨1, 0, 0⟩, ⟨0, 1, 0⟩] :
        List (Vec3 ℤ)).length ≠ 2
     ∧ ([(⟨1, 2, 3⟩ : Vec3 ℤ), ⟨4, 5, 6⟩, ⟨7, 8, 9⟩, ⟨1, 0, 0⟩, ⟨0, 1, 0⟩] :
        List (Vec3 ℤ)).length ≠ 3
     ∧ ([(⟨1, 2, 3⟩ : Vec3 ℤ), ⟨4, 5, 6⟩, ⟨7, 8, 9⟩, ⟨1, 0, 0⟩, ⟨0, 1, 0⟩] :
        List (Vec3 ℤ)).length ≠ 4)
    ∧ ContainsOriginChecked
        [(⟨1, 2, 3⟩ : Vec3 ℤ), ⟨4, 5, 6⟩, ⟨7, 8, 9⟩, ⟨1, 0, 0⟩, ⟨0, 1, 0⟩]
        ⟨3, 1, 4⟩ =
        some (false, [⟨1, 2, 3⟩, ⟨4, 5, 6⟩, ⟨7, 8, 9⟩, ⟨1, 0, 0⟩, ⟨0, 1, 0⟩],
          ⟨3, 1, 4⟩)
    ∧ ContainsOrigin
        [(⟨1, 2, 3⟩ : Vec3 ℤ), ⟨4, 5, 6⟩, ⟨7, 8, 9⟩, ⟨1, 0, 0⟩, ⟨0, 1, 0⟩]
        ⟨3, 1, 4⟩ =
        (false, [⟨1, 2, 3⟩, ⟨4, 5, 6⟩, ⟨7, 8, 9⟩, ⟨1, 0, 0⟩, ⟨0, 1, 0⟩], ⟨3, 1, 4⟩) :=
  ⟨⟨by decide, by decide, by decide, by decide⟩,
    (containsOrigin_other_sizes
      [⟨1, 2, 3⟩, ⟨4, 5, 6⟩, ⟨7, 8, 9⟩, ⟨1, 0, 0⟩, ⟨0, 1, 0⟩]
      ⟨3, 1, 4⟩ (by decide) (by decide) (by decide) (by decide)).1,
    (containsOrigin_other_sizes
      [⟨1, 2, 3⟩, ⟨4, 5, 6⟩, ⟨7, 8, 9⟩, ⟨1, 0, 0⟩, ⟨0, 1, 0⟩]
      ⟨3, 1, 4⟩ (by decide) (by decide) (by decide) (by decide)).2⟩

/-- Claim C3, counterexample: invoked from the 4-point case of
`ContainsOrigin` on the simplex `[(-1,1,2), (-2,2,-1), (-2,-1,1), (0,-1,1)]`,
`checkTetrahedron` removes two points, leaving a 2-point simplex — not
"exactly one point" as claimed. -/
theorem checkTetrahedron_drops_two_cex :
    ContainsOrigin [(⟨-1, 1, 2⟩ : Vec3 ℤ), ⟨-2, 2, -1⟩, ⟨-2, -1, 1⟩, ⟨0, -1, 1⟩]
        ⟨1, 0, 0⟩ =
      (false, [⟨-2, 2, -1⟩, ⟨0, -1, 1⟩], ⟨10, 2, -7⟩)
    ∧ (ContainsOrigin [(⟨-1, 1, 2⟩ : Vec3 ℤ), ⟨-2, 2, -1⟩, ⟨-2, -1, 1⟩, ⟨0, -1, 1⟩]
        ⟨1, 0, 0⟩).2.1.length ≠ 3 :=
  ⟨by decide, by decide⟩

/-- Claim C3, amended: every invocation of `checkTetrahedron` on a 4-point
simplex returns not contained and reduces the simplex by one or two
points, leaving either a 3-point or a 2-point simplex, and produces the
next search direction from the non-containing edge or face: the first
outside edge gives `(ab x ao) x ab`, the second gives `(ac x ao) x ac`,
and otherwise the direction is the face normal `abc`. -/
theorem checkTetrahedron_reduces (ao ab ac abc dir : Vec3 α) (s : List (Vec3 α))
    (h : s.length = 4) :
    (checkTetrahedron ao ab ac abc s dir).1 = false
    ∧ ((checkTetrahedron ao ab ac abc s dir).2.1.length = 3
       ∨ (checkTetrahedron ao ab ac abc s dir).2.1.length = 2)
    ∧ (0 < dotv (cross ab abc) ao →
        (checkTetrahedron ao ab ac abc s dir).2.2 = cross (cross ab ao) ab)
    ∧ (¬ 0 < dotv (cross ab abc) ao → 0 < dotv (cross abc ac) ao →
        (checkTetrahedron ao ab ac abc s dir).2.2 = cross (cross ac ao) ac)
    ∧ (¬ 0 < dotv (cross ab abc) ao → ¬ 0 < dotv (cross abc ac) ao →
        (checkTetrahedron ao ab ac abc s dir).2.2 = abc) := by
  match s, h with
  | [s0, s1, s2, s3], _ =>
    by_cases h1 : 0 < dotv (cross ab abc) ao
    · simp [checkTetrahedron, h1]
    · by_cases h2 : 0 < dotv (cross abc ac) ao
      · simp [checkTetrahedron, h1, h2]
      · simp [checkTetrahedron, h1, h2]

theorem checkTetrahedron_reduces_witness :
    (([(⟨-1, 1, 2⟩ : Vec3 ℤ), ⟨-2, 2, -1⟩, ⟨-2, -1, 1⟩, ⟨0, -1, 1⟩] :
        List (Vec3 ℤ)).length = 4)
    ∧ (checkTetrahedron (⟨0, -1, 0⟩ : Vec3 ℤ) ⟨1, 0, 0⟩ ⟨0, 1, 0⟩ ⟨0, 0, 1⟩
        [⟨-1, 1, 2⟩, ⟨-2, 2, -1⟩, ⟨-2, -1, 1⟩, ⟨0, -1, 1⟩] ⟨9, 9, 9⟩).1 = false
    ∧ ((checkTetrahedron (⟨0, -1, 0⟩ : Vec3 ℤ) ⟨1, 0, 0⟩ ⟨0, 1, 0⟩ ⟨0, 0, 1⟩
        [⟨-1, 1, 2⟩, ⟨-2, 2, -1⟩, ⟨-2, -1, 1⟩, ⟨0, -1, 1⟩] ⟨9, 9, 9⟩).2.1.length = 3
       ∨ (checkTetrahedron (⟨0, -1, 0⟩ : Vec3 ℤ) ⟨1, 0, 0⟩ ⟨0, 1, 0⟩ ⟨0, 0, 1⟩
        [⟨-1, 1, 2⟩, ⟨-2, 2, -1⟩, ⟨-2, -1, 1⟩, ⟨0, -1, 1⟩] ⟨9, 9, 9⟩).2.1.length = 2) :=
  ⟨by decide,
    (checkTetrahedron_reduces ⟨0, -1, 0⟩ ⟨1, 0, 0⟩ ⟨0, 1, 0⟩ ⟨0, 0, 1⟩ ⟨9, 9, 9⟩
      [⟨-1, 1, 2⟩, ⟨-2, 2, -1⟩, ⟨-2, -1, 1⟩, ⟨0, -1, 1⟩] (by decide)).1,
    (checkTetrahedron_reduces ⟨0, -1, 0⟩ ⟨1, 0, 0⟩ ⟨0, 1, 0⟩ ⟨0, 0, 1⟩ ⟨9, 9, 9⟩
      [⟨-1, 1, 2⟩, ⟨-2, 2, -1⟩, ⟨-2, -1, 1⟩, ⟨0, -1, 1⟩] (by decide)).2.1⟩

lemma containsOrigin_length (simplex : List (Vec3 α)) (dir : Vec3 α)
    (h : simplex.length = 3 ∨ simplex.length = 4)
    (hfalse : (ContainsOrigin simplex dir).1 = false) :
    (ContainsOrigin simplex dir).2.1.length = 2
    ∨ (ContainsOrigin simplex dir).2.1.length = 3 := by
  rcases h with h | h
  · match simplex, h with
    | [c, b, a], _ =>
      simp only [ContainsOrigin]
      split_ifs <;> simp
  · match simplex, h with
    | [d, c, b, a], _ =>
      simp only [ContainsOrigin, checkTetrahedron] at hfalse ⊢
      split_ifs at hfalse ⊢ <;> simp_all

/-- Claim C9: the simplex never exceeds 4 points during a `TestGJK` call:
the state produced before the loop holds exactly 2 points; from any loop
state with 2 or 3 points (so every push happens at size at most 3), the
pushed simplex handed to `ContainsOrigin` has exactly 3 or 4 points (never
2) and at most 4 points, and whenever the loop continues, the new state
again holds 2 or 3 points. -/
theorem simplex_size_invariant (a b : OBB α) (s : GJKState α)
    (h : s.simplex.length = 2 ∨ s.simplex.length = 3) :
    s.simplex.length ≤ 3
    ∧ ((s.simplex ++ [Support a b s.dir]).length = 3
       ∨ (s.simplex ++ [Support a b s.dir]).length = 4)
    ∧ (s.simplex ++ [Support a b s.dir]).length ≤ 4
    ∧ (∀ s1 : GJKState α, gjkStep a b s = Sum.inl s1 →
        s1.simplex.length = 2 ∨ s1.simplex.length = 3)
    ∧ (∀ s0 : GJKState α, initGJK a b = Sum.inr s0 → s0.simplex.length = 2) := by
  have hlen : (s.simplex ++ [Support a b s.dir]).length = s.simplex.length + 1 := by
    simp
  refine ⟨?_, ?_, ?_, ?_, ?_⟩
  · rcases h with h | h <;> omega
  · rcases h with h | h <;> [exact Or.inl (by omega); exact Or.inr (by omega)]
  · rcases h with h | h <;> omega
  · intro s1 hs1
    simp only [gjkStep] at hs1
    by_cases hd : dotv (Support a b s.dir) s.dir ≤ 0
    · rw [if_pos hd] at hs1
      exact absurd hs1 (by simp)
    · rw [if_neg hd] at hs1
      by_cases hc : (ContainsOrigin (s.simplex ++ [Support a b s.dir]) s.dir).1
      · rw [if_pos hc] at hs1
        exact absurd hs1 (by simp)
      · rw [if_neg hc] at hs1
        cases hs1
        exact containsOrigin_length (s.simplex ++ [Support a b s.dir]) s.dir
          (by rcases h with h | h <;> [exact Or.inl (by omega); exact Or.inr (by omega)])
          (by simpa using hc)
  · intro s0 h0
    simp only [initGJK] at h0
    by_cases hd : dotv (Support a b (negv (Support a b dirInit)))
        (negv (Support a b dirInit)) < 0
    · rw [if_pos hd] at h0
      exact absurd h0 (by simp)
    · rw [if_neg hd] at h0
      cases h0
      rfl

theorem simplex_size_invariant_witness :
    ((⟨[⟨1, 0, 0⟩, ⟨0, 1, 0⟩], ⟨0, 0, 1⟩⟩ : GJKState ℤ).simplex.length = 2
      ∨ (⟨[⟨1, 0, 0⟩, ⟨0, 1, 0⟩], ⟨0, 0, 1⟩⟩ : GJKState ℤ).simplex.length = 3)
    ∧ (((⟨[⟨1, 0, 0⟩, ⟨0, 1, 0⟩], ⟨0, 0, 1⟩⟩ : GJKState ℤ).simplex
          ++ [Support boxA boxB
                (⟨[⟨1, 0, 0⟩, ⟨0, 1, 0⟩], ⟨0, 0, 1⟩⟩ : GJKState ℤ).dir]).length = 3
       ∨ ((⟨[⟨1, 0, 0⟩, ⟨0, 1, 0⟩], ⟨0, 0, 1⟩⟩ : GJKState ℤ).simplex
          ++ [Support boxA boxB
                (⟨[⟨1, 0, 0⟩, ⟨0, 1, 0⟩], ⟨0, 0, 1⟩⟩ : GJKState ℤ).dir]).length = 4) :=
  ⟨by decide,
    (simplex_size_invariant boxA boxB ⟨[⟨1, 0, 0⟩, ⟨0, 1, 0⟩], ⟨0, 0, 1⟩⟩
      (by decide)).2.1⟩

/-- Claim C2: the driving loop returns NoIntersect in exactly two places:
before the loop, when the dot product of the second support point with
`dir = -firstPoint` is strictly negative (otherwise the computation
proceeds into the loop unchanged), and inside the loop, when the newly
pushed support point has non-positive dot product with the search
direction.  A loop iteration returns Intersect exactly when the new point
passes the strict progress test and `ContainsOrigin` reports containment,
and otherwise the loop continues with the simplex and direction returned
by `ContainsOrigin`; no other exit exists. -/
theorem testGJK_exits (a b : OBB α) (fuel : Nat) :
    (dotv (Support a b (negv (Support a b dirInit))) (negv (Support a b dirInit)) < 0 →
      TestGJKFuel fuel a b = some false)
    ∧ (¬ dotv (Support a b (negv (Support a b dirInit)))
          (negv (Support a b dirInit)) < 0 →
      TestGJKFuel fuel a b = gjkLoop a b fuel
        ⟨[Support a b dirInit, Support a b (negv (Support a b dirInit))],
          cross
            (cross
              (subv (Support a b dirInit) (Support a b (negv (Support a b dirInit))))
              (negv (Support a b (negv (Support a b dirInit)))))
            (subv (Support a b dirInit) (Support a b (negv (Support a b dirInit))))⟩)
    ∧ (∀ s : GJKState α,
        (gjkStep a b s = Sum.inr false ↔ dotv (Support a b s.dir) s.dir ≤ 0)
        ∧ (gjkStep a b s = Sum.inr true ↔
            (0 < dotv (Support a b s.dir) s.dir
              ∧ (ContainsOrigin (s.simplex ++ [Support a b s.dir]) s.dir).1 = true))
        ∧ (0 < dotv (Support a b s.dir) s.dir →
            (ContainsOrigin (s.simplex ++ [Support a b s.dir]) s.dir).1 = false →
            gjkStep a b s = Sum.inl
              ⟨(ContainsOrigin (s.simplex ++ [Support a b s.dir]) s.dir).2.1,
                (ContainsOrigin (s.simplex ++ [Support a b s.dir]) s.dir).2.2⟩)) := by
  refine ⟨fun h => ?_, fun h => ?_, fun s => ⟨?_, ?_, fun hpos hfalse => ?_⟩⟩
  · simp only [TestGJKFuel, initGJK]
    rw [if_pos h]
  · simp only [TestGJKFuel, initGJK]
    rw [if_neg h]
  · simp only [gjkStep]
    split_ifs with hd hc
    · simp [hd]
    · simp [hd, hc]
    · simp [hd]
  · simp only [gjkStep]
    split_ifs with hd hc
    · simp [not_lt.mpr hd]
    · simp [not_le.mp hd, hc]
    · simp [hc]
  · simp only [gjkStep]
    rw [if_neg (not_le.mpr hpos), if_neg (by rw [hfalse]; exact Bool.false_ne_true)]

theorem testGJK_exits_witness :
    dotv (Support boxA boxSep (negv (Support boxA boxSep dirInit)))
      (negv (Support boxA boxSep dirInit)) < 0
    ∧ TestGJKFuel 5 boxA boxSep = some false :=
  ⟨by decide, (testGJK_exits boxA boxSep 5).1 (by decide)⟩

/-- Claim C8, failing-input evaluation: on the touching boxes `boxA` and
`boxB` the verdict depends on the argument order — `TestGJK(boxA, boxB)`
returns NoIntersect (after 1 loop iteration) while `TestGJK(boxB, boxA)`
returns Intersect (after 3 loop iterations), so the symmetry property
`Test(A,B) == Test(B,A)` fails on the code. -/
theorem testGJK_asymmetric_eval :
    TestGJKFuel 20 boxA boxB = some false
    ∧ TestGJKFuel 20 boxB boxA = some true
    ∧ TestGJKFuel 20 boxA boxB ≠ TestGJKFuel 20 boxB boxA :=
  ⟨by decide, by decide, by decide⟩

end GJK
